import Mathlib

/-!
Verification development for the gopdb PDB reader.

The Go sources are shallowly embedded: byte slices become `List Nat`
(each entry a byte value), strings become Lean `String`/`List Char`,
fallible functions return `Except String`/`Option`, and machine-integer
arithmetic is `Nat` with explicit `% 2^w` where Go would wrap.
Go runtime panics (out-of-range slice indexing) are modelled as a
distinguished `none`/`panic` outcome.  Loops whose Go form is unbounded
recursion are given an explicit fuel parameter; call sites pass enough
fuel that exhaustion is unreachable whenever the Go loop terminates.
-/

namespace GoPdb

deriving instance DecidableEq for Except

/-- Read one byte; `none` models a Go index-out-of-range panic. -/
def readU8 (data : List Nat) (off : Nat) : Option Nat := data.get? off

/-- Read a little-endian u16; `none` when fewer than 2 bytes remain. -/
def readU16 (data : List Nat) (off : Nat) : Option Nat := do
  let b0 ← data.get? off
  let b1 ← data.get? (off+1)
  pure (b0 + 256 * b1)

/-- Read a little-endian u32; `none` when fewer than 4 bytes remain. -/
def readU32 (data : List Nat) (off : Nat) : Option Nat := do
  let b0 ← data.get? off
  let b1 ← data.get? (off+1)
  let b2 ← data.get? (off+2)
  let b3 ← data.get? (off+3)
  pure (b0 + 256 * b1 + 65536 * b2 + 16777216 * b3)

/-- Total little-endian u16 decode (used after explicit bounds checks). -/
def u16at (data : List Nat) (off : Nat) : Nat :=
  data.getD off 0 + 256 * data.getD (off+1) 0

/-- Total little-endian u32 decode (used after explicit bounds checks). -/
def u32at (data : List Nat) (off : Nat) : Nat :=
  data.getD off 0 + 256 * data.getD (off+1) 0 + 65536 * data.getD (off+2) 0 +
    16777216 * data.getD (off+3) 0

/-- Total little-endian u64 decode (used after explicit bounds checks). -/
def u64at (data : List Nat) (off : Nat) : Nat :=
  u32at data off + 4294967296 * u32at data (off+4)

/-- Go `uint64(int8(b))`: sign-extend a byte to 64 bits. -/
def i8ToU64 (b : Nat) : Nat := if b < 128 then b else b + (2^64 - 256)

/-- Go `uint64(int16(v))`: sign-extend a u16 value to 64 bits. -/
def i16ToU64 (v : Nat) : Nat := if v < 2^15 then v else v + (2^64 - 2^16)

/-- Go `uint64(int32(v))`: sign-extend a u32 value to 64 bits. -/
def i32ToU64 (v : Nat) : Nat := if v < 2^31 then v else v + (2^64 - 2^32)

/-- Go `string(bytes)`: byte-preserving conversion of a byte list. -/
def bytesToString (l : List Nat) : String := String.mk (l.map (fun b => Char.ofNat b))

/-- Embeds `streams.ParseNumeric` (numeric leaf): value and bytes consumed. -/
def ParseNumeric (data : List Nat) : Nat × Nat :=
  if data.length < 2 then (0, 0) else
  let val := u16at data 0
  if val < 0x8000 then (val, 2)
  else if val == 0x8000 then
    (if data.length < 3 then (0, 0) else (i8ToU64 (data.getD 2 0), 3))
  else if val == 0x8001 then
    (if data.length < 4 then (0, 0) else (i16ToU64 (u16at data 2), 4))
  else if val == 0x8002 then
    (if data.length < 4 then (0, 0) else (u16at data 2, 4))
  else if val == 0x8003 then
    (if data.length < 6 then (0, 0) else (i32ToU64 (u32at data 2), 6))
  else if val == 0x8004 then
    (if data.length < 6 then (0, 0) else (u32at data 2, 6))
  else if val == 0x8009 then
    (if data.length < 10 then (0, 0) else (u64at data 2, 10))
  else if val == 0x800a then
    (if data.length < 10 then (0, 0) else (u64at data 2, 10))
  else (0, 0)

/-- Embeds `codeview.parseNumeric`, a verbatim copy of `streams.ParseNumeric`
in the Go sources. -/
def parseNumericCV (data : List Nat) : Nat × Nat :=
  if data.length < 2 then (0, 0) else
  let val := u16at data 0
  if val < 0x8000 then (val, 2)
  else if val == 0x8000 then
    (if data.length < 3 then (0, 0) else (i8ToU64 (data.getD 2 0), 3))
  else if val == 0x8001 then
    (if data.length < 4 then (0, 0) else (i16ToU64 (u16at data 2), 4))
  else if val == 0x8002 then
    (if data.length < 4 then (0, 0) else (u16at data 2, 4))
  else if val == 0x8003 then
    (if data.length < 6 then (0, 0) else (i32ToU64 (u32at data 2), 6))
  else if val == 0x8004 then
    (if data.length < 6 then (0, 0) else (u32at data 2, 6))
  else if val == 0x8009 then
    (if data.length < 10 then (0, 0) else (u64at data 2, 10))
  else if val == 0x800a then
    (if data.length < 10 then (0, 0) else (u64at data 2, 10))
  else (0, 0)

/-- Embeds `streams.ParseString`: null-terminated string and bytes consumed. -/
def ParseString (data : List Nat) : String × Nat :=
  match data.findIdx? (· == 0) with
  | none => (bytesToString data, data.length)
  | some idx => (bytesToString (data.take idx), idx + 1)

/-- Lowercase hex rendering of a natural number (Go `%x`). -/
def natToHex (n : Nat) : String := String.mk (Nat.toDigits 16 n)

/-- Lowercase hex rendering zero-padded to width 4 (Go `%04x`). -/
def natToHex4 (n : Nat) : String :=
  let ds := Nat.toDigits 16 n
  String.mk (List.replicate (4 - ds.length) '0' ++ ds)

/-- First real type index; indices below are built-in types. -/
def TypeIndexBegin : Nat := 0x1000

/-- Embeds `streams.GetBuiltinTypeName`. -/
def GetBuiltinTypeName (typeIdx : Nat) : String :=
  if typeIdx ≥ TypeIndexBegin then "" else
  let kind := typeIdx % 256
  let mode := (typeIdx / 256) % 16
  let baseName :=
    if kind == 0x0000 then "<no type>"
    else if kind == 0x0003 then "void"
    else if kind == 0x0010 then "char"
    else if kind == 0x0011 then "short"
    else if kind == 0x0012 then "long"
    else if kind == 0x0013 then "int64"
    else if kind == 0x0020 then "unsigned char"
    else if kind == 0x0021 then "unsigned short"
    else if kind == 0x0022 then "unsigned long"
    else if kind == 0x0023 then "uint64"
    else if kind == 0x0030 then "bool"
    else if kind == 0x0032 then "BOOL"
    else if kind == 0x0040 then "float"
    else if kind == 0x0041 then "double"
    else if kind == 0x0042 then "long double"
    else if kind == 0x0068 then "int8"
    else if kind == 0x0069 then "uint8"
    else if kind == 0x0070 then "char"
    else if kind == 0x0071 then "wchar_t"
    else if kind == 0x0072 then "int16"
    else if kind == 0x0073 then "uint16"
    else if kind == 0x0074 then "int32"
    else if kind == 0x0075 then "uint32"
    else if kind == 0x0076 then "int64"
    else if kind == 0x0077 then "uint64"
    else if kind == 0x0008 then "HRESULT"
    else "builtin_0x" ++ natToHex4 typeIdx
  if mode == 0 then baseName
  else if mode == 1 then baseName ++ "*"
  else if mode == 4 then baseName ++ "*"
  else if mode == 6 then baseName ++ "*"
  else if mode == 2 then baseName ++ " far*"
  else if mode == 5 then baseName ++ " far*"
  else baseName ++ "*"

/-- Result of demangling: separated name and prototype (from `demangle.go`). -/
structure DemangleResult where
  Name : String
  Prototype : String
deriving DecidableEq, Repr

/-- Shorthand: the character list of a string literal. -/
def chars (st : String) : List Char := st.toList

/-- State of the MSVC demangler (`msvcDemangler` in `demangle.go`):
input characters, cursor, and the back-reference table.  Go indexes the
string by bytes; the embedding uses characters, which coincides on the
ASCII alphabet mangled names are drawn from. -/
structure Dem where
  input : List Char
  pos : Nat
  names : List (List Char)
deriving Repr

/-- Embeds `msvcDemangler.parseName`: take characters up to the next
`@` or `?` and advance the cursor past them. -/
def parseName (d : Dem) : List Char × Dem :=
  let seg := (d.input.drop d.pos).takeWhile (fun c => !((c == '@') || (c == '?')))
  (seg, { d with pos := d.pos + seg.length })

/-- Embeds `msvcDemangler.parseSpecialName` (the operator table). -/
def parseSpecialName (d : Dem) : List Char × Dem :=
  match d.input.get? d.pos with
  | none => ([], d)
  | some c =>
    let d1 : Dem := { d with pos := d.pos + 1 }
    match c with
    | '0' => parseName d1
    | '1' => let (n, d2) := parseName d1; ('~' :: n, d2)
    | '2' => (chars "operator new", d1)
    | '3' => (chars "operator delete", d1)
    | '4' => (chars "operator=", d1)
    | '5' => (chars "operator>>", d1)
    | '6' => (chars "operator<<", d1)
    | '7' => (chars "operator!", d1)
    | '8' => (chars "operator==", d1)
    | '9' => (chars "operator!=", d1)
    | 'A' => (chars "operator[]", d1)
    | 'B' => (chars "operator (cast)", d1)
    | 'C' => (chars "operator->", d1)
    | 'D' => (chars "operator*", d1)
    | 'E' => (chars "operator++", d1)
    | 'F' => (chars "operator--", d1)
    | 'G' => (chars "operator-", d1)
    | 'H' => (chars "operator+", d1)
    | 'I' => (chars "operator&", d1)
    | 'J' => (chars "operator->*", d1)
    | 'K' => (chars "operator/", d1)
    | 'L' => (chars "operator%", d1)
    | 'M' => (chars "operator<", d1)
    | 'N' => (chars "operator<=", d1)
    | 'O' => (chars "operator>", d1)
    | 'P' => (chars "operator>=", d1)
    | 'Q' => (chars "operator,", d1)
    | 'R' => (chars "operator()", d1)
    | 'S' => (chars "operator~", d1)
    | 'T' => (chars "operator^", d1)
    | 'U' => (chars "operator|", d1)
    | 'V' => (chars "operator&&", d1)
    | 'W' => (chars "operator||", d1)
    | 'X' => (chars "operator*=", d1)
    | 'Y' => (chars "operator+=", d1)
    | 'Z' => (chars "operator-=", d1)
    | '_' =>
      match d1.input.get? d1.pos with
      | none => ([], d1)
      | some c2 =>
        let d2 : Dem := { d1 with pos := d1.pos + 1 }
        match c2 with
        | '0' => (chars "operator/=", d2)
        | '1' => (chars "operator%=", d2)
        | '2' => (chars "operator>>=", d2)
        | '3' => (chars "operator<<=", d2)
        | '4' => (chars "operator&=", d2)
        | '5' => (chars "operator|=", d2)
        | '6' => (chars "operator^=", d2)
        | 'E' => (chars "dynamic initializer", d2)
        | 'F' => (chars "dynamic atexit destructor", d2)
        | 'K' => let (n, d3) := parseName d2; (chars "operator \"\" " ++ n, d3)
        | _ => ([], d2)
    | _ => ([], d1)

/-- Loop body of `msvcDemangler.parseQualifiedName`.  Every iteration of
the Go loop advances the cursor by at least one character, so fuel
`input.length + 1` can never be exhausted. -/
def qualLoop : Nat → Dem → List (List Char) → List (List Char) × Dem
  | 0, d, parts => (parts, d)
  | fuel+1, d, parts =>
    match d.input.get? d.pos with
    | none => (parts, d)
    | some c =>
      if c == '@' then
        let d1 : Dem := { d with pos := d.pos + 1 }
        if d1.input.get? d1.pos == some '@' then (parts, { d1 with pos := d1.pos + 1 })
        else qualLoop fuel d1 parts
      else if 48 ≤ c.toNat ∧ c.toNat ≤ 57 then
        let idx := c.toNat - 48
        let d1 : Dem := { d with pos := d.pos + 1 }
        let parts1 := if idx < d1.names.length then parts ++ [d1.names.getD idx []] else parts
        qualLoop fuel d1 parts1
      else if c == '?' then
        let d1 : Dem := { d with pos := d.pos + 1 }
        let (sp, d2) := parseSpecialName d1
        let parts1 := if sp.isEmpty then parts else parts ++ [sp]
        qualLoop fuel d2 parts1
      else
        let (n, d1) := parseName d
        if n.isEmpty then qualLoop fuel d1 parts
        else qualLoop fuel { d1 with names := d1.names ++ [n] } (parts ++ [n])

/-- Embeds `msvcDemangler.parseQualifiedName`: collect segments, reverse
(inner-to-outer), join with `::`. -/
def parseQualifiedName (d : Dem) : List Char × Dem :=
  let (parts, d1) := qualLoop (d.input.length + 1) d []
  (List.intercalate (chars "::") parts.reverse, d1)

/-- Embeds `msvcDemangler.parseAccessModifier`. -/
def parseAccessModifier (c : Char) : List Char :=
  match c with
  | 'A' | 'Q' => chars "private:"
  | 'B' | 'R' => chars "private: static"
  | 'C' | 'I' | 'S' => chars "protected:"
  | 'D' | 'J' | 'T' => chars "protected: static"
  | 'E' | 'K' => chars "public:"
  | 'F' | 'L' => chars "public: static"
  | 'M' => chars "private: virtual"
  | 'N' => chars "protected: virtual"
  | 'O' => chars "public: virtual"
  | _ => []

/-- Embeds `msvcDemangler.parseCallingConvention`; unknown letters
restore the cursor. -/
def parseCallingConvention (d : Dem) : List Char × Dem :=
  match d.input.get? d.pos with
  | none => ([], d)
  | some c =>
    let d1 : Dem := { d with pos := d.pos + 1 }
    match c with
    | 'A' => (chars "__cdecl", d1)
    | 'B' => (chars "__cdecl __export", d1)
    | 'C' => (chars "__pascal", d1)
    | 'D' => (chars "__pascal __export", d1)
    | 'E' => (chars "__thiscall", d1)
    | 'F' => (chars "__thiscall __export", d1)
    | 'G' => (chars "__stdcall", d1)
    | 'H' => (chars "__stdcall __export", d1)
    | 'I' => (chars "__fastcall", d1)
    | 'J' => (chars "__fastcall __export", d1)
    | 'K' => ([], d1)
    | 'L' => ([], d1)
    | 'M' => (chars "__clrcall", d1)
    | 'Q' => (chars "__vectorcall", d1)
    | _ => ([], d)

/-- Scanning loop of `msvcDemangler.parseClassName`: returns the final
cursor position (after a terminating `@@`, or at end of input). -/
def cnLoop : Nat → List Char → Nat → Nat
  | 0, _, pos => pos
  | fuel+1, input, pos =>
    match input.get? pos with
    | none => pos
    | some c =>
      if c == '@' then
        if input.get? (pos+1) == some '@' then pos + 2
        else cnLoop fuel input (pos+1)
      else cnLoop fuel input (pos+1)

/-- Embeds `msvcDemangler.parseClassName`.  The Go code slices
`input[start : pos-2]` after the scan; when fewer than two characters
were consumed this slice has a lower bound above its upper bound and
the Go runtime panics, modelled as `none`. -/
def parseClassName (d : Dem) : Option (List Char × Dem) :=
  let start := d.pos
  let finalPos := cnLoop (d.input.length + 1) d.input d.pos
  if finalPos < start + 2 then none
  else
    let name := (d.input.take (finalPos - 2)).drop start
    let parts := (name.splitOn '@').reverse
    some (List.intercalate (chars "::") parts, { d with pos := finalPos })

/-- Embeds `msvcDemangler.parseType`.  Recursion through pointer and
reference modifiers consumes a character first, so fuel
`input.length + 1` is never exhausted; `none` propagates the
`parseClassName` panic. -/
def parseType : Nat → Dem → Option (List Char × Dem)
  | 0, d => some ([], d)
  | fuel+1, d =>
    match d.input.get? d.pos with
    | none => some ([], d)
    | some c =>
      let d1 : Dem := { d with pos := d.pos + 1 }
      match c with
      | 'X' => some (chars "void", d1)
      | 'C' => some (chars "signed char", d1)
      | 'D' => some (chars "char", d1)
      | 'E' => some (chars "unsigned char", d1)
      | 'F' => some (chars "short", d1)
      | 'G' => some (chars "unsigned short", d1)
      | 'H' => some (chars "int", d1)
      | 'I' => some (chars "unsigned int", d1)
      | 'J' => some (chars "long", d1)
      | 'K' => some (chars "unsigned long", d1)
      | 'M' => some (chars "float", d1)
      | 'N' => some (chars "double", d1)
      | 'O' => some (chars "long double", d1)
      | '_' =>
        match d1.input.get? d1.pos with
        | none => some ([], d)
        | some c2 =>
          let d2 : Dem := { d1 with pos := d1.pos + 1 }
          match c2 with
          | 'J' => some (chars "__int64", d2)
          | 'K' => some (chars "unsigned __int64", d2)
          | 'N' => some (chars "bool", d2)
          | 'W' => some (chars "wchar_t", d2)
          | 'S' => some (chars "char16_t", d2)
          | 'U' => some (chars "char32_t", d2)
          | _ => some ([], d1)
      | 'P' => do
        let (inner, d2) ← parseType fuel d1
        some (inner ++ chars "*", d2)
      | 'Q' => do
        let (inner, d2) ← parseType fuel d1
        some (inner ++ chars "* const", d2)
      | 'A' => do
        let (inner, d2) ← parseType fuel d1
        some (inner ++ chars "&", d2)
      | 'B' => do
        let (inner, d2) ← parseType fuel d1
        some (chars "volatile " ++ inner, d2)
      | 'U' | 'V' | 'T' => parseClassName d1
      | '@' => some ([], d1)
      | 'Z' => some (chars "...", d1)
      | _ => some ([], d)

/-- Loop body of `msvcDemangler.parseArguments`. -/
def argLoop : Nat → Dem → List (List Char) → Option (List (List Char) × Dem)
  | 0, d, args => some (args, d)
  | fuel+1, d, args =>
    match d.input.get? d.pos with
    | none => some (args, d)
    | some c =>
      if (c == '@') || (c == 'Z') then some (args, { d with pos := d.pos + 1 })
      else do
        let (arg, d1) ← parseType fuel d
        if arg.isEmpty then some (args, d1)
        else
          let args1 := args ++ [arg]
          if args1.length > 20 then some (args1, d1)
          else argLoop fuel d1 args1

/-- Embeds `msvcDemangler.parseArguments`: comma-joined argument types. -/
def parseArguments (d : Dem) : Option (List Char × Dem) := do
  let (args, d1) ← argLoop (d.input.length + 1) d []
  some (List.intercalate (chars ", ") args, d1)

/-- Embeds `msvcDemangler.parseFunctionType`. -/
def parseFunctionType (access : List Char) (d : Dem) : Option (List Char × Dem) :=
  if d.pos ≥ d.input.length then some (access, d)
  else do
    let (callingConv, d1) := parseCallingConvention d
    let (returnType, d2) ← parseType (d1.input.length + 1) d1
    let (args, d3) ← parseArguments d2
    let result := returnType
    let result := if callingConv.isEmpty then result
      else (if result.isEmpty then result else result ++ chars " ") ++ callingConv
    let result := if args.isEmpty then result
      else result ++ chars "(" ++ args ++ chars ")"
    some (result, d3)

/-- Embeds `msvcDemangler.parseTypeEncoding`. -/
def parseTypeEncoding (d : Dem) : Option (List Char × Dem) :=
  match d.input.get? d.pos with
  | none => some ([], d)
  | some c =>
    let d1 : Dem := { d with pos := d.pos + 1 }
    match c with
    | 'Y' => parseFunctionType [] d1
    | 'Q' | 'R' | 'S' | 'T' | 'A' | 'B' | 'C' | 'D' =>
      parseFunctionType (parseAccessModifier c) d1
    | '3' | '0' | '1' | '2' => some ([], d1)
    | _ => some ([], d)

/-- Embeds `msvcDemangler.demangleFull`: qualified name, then
the optional type encoding. -/
def demangleFullCore (d : Dem) : Option DemangleResult :=
  let (qualName, d1) := parseQualifiedName d
  if qualName.isEmpty then some ⟨"", ""⟩
  else if d1.pos ≥ d1.input.length then some ⟨String.mk qualName, ""⟩
  else do
    let (proto, _) ← parseTypeEncoding d1
    some ⟨String.mk qualName, String.mk proto⟩

/-- Embeds `demangleMSVCFull`. -/
def demangleMSVCFull (cs : List Char) : Option DemangleResult :=
  if cs.length < 2 ∨ cs.get? 0 ≠ some '?' then some ⟨String.mk cs, ""⟩
  else demangleFullCore ⟨cs, 1, []⟩

/-- Index of the last occurrence of a character (Go `strings.LastIndex`),
`none` standing for Go result `-1`. -/
def lastIndexOfChar (l : List Char) (c : Char) : Option Nat :=
  match l.reverse.findIdx? (· == c) with
  | none => none
  | some k => some (l.length - 1 - k)

/-- Embeds `demangleCDecl`: strip one leading underscore and a trailing
all-digit `@nn` suffix. -/
def demangleCDecl (cs : List Char) : String :=
  let result := cs.drop 1
  match lastIndexOfChar result '@' with
  | some atIdx =>
    if atIdx > 0 then
      let suffix := result.drop (atIdx + 1)
      let isNumber := suffix.all (fun ch => decide (48 ≤ ch.toNat) && decide (ch.toNat ≤ 57))
      if isNumber ∧ suffix.length > 0 then String.mk (result.take atIdx)
      else String.mk result
    else String.mk result
  | none => String.mk result

/-- Embeds `DemangleFull`; fuel bounds the (in the Go code unreachable)
recursion through the `__imp_` branch. -/
def demangleFullAux : Nat → List Char → Option DemangleResult
  | 0, cs => some ⟨String.mk cs, ""⟩
  | fuel+1, cs =>
    if cs.isEmpty then some ⟨"", ""⟩
    else if cs.get? 0 == some '?' then demangleMSVCFull cs
    else if cs.get? 0 == some '_' then some ⟨demangleCDecl cs, ""⟩
    else if (chars "__imp_").isPrefixOf cs then do
      let inner ← demangleFullAux fuel (cs.drop 6)
      if inner.Name ≠ "" then some ⟨inner.Name ++ " [import]", inner.Prototype⟩
      else some ⟨String.mk cs, ""⟩
    else some ⟨String.mk cs, ""⟩

/-- Embeds `DemangleFull`; `none` models a Go runtime panic. -/
def DemangleFull (name : String) : Option DemangleResult :=
  demangleFullAux (name.length + 1) name.toList

/-- Embeds `Demangle`: fall back to the input when the demangled name
is empty; `none` models a Go runtime panic. -/
def Demangle (name : String) : Option String :=
  match DemangleFull name with
  | none => none
  | some result => if result.Name = "" then some name else some result.Name

/-! ### TPI stream (`streams`, TPI part) -/

/-- Leaf kind constants from the Go sources (only the ones the embedded
functions dispatch on). -/
def LF_MODIFIER : Nat := 0x1001

def LF_POINTER : Nat := 0x1002

def LF_ARRAY : Nat := 0x1003

def LF_CLASS : Nat := 0x1004

def LF_STRUCTURE : Nat := 0x1005

def LF_UNION : Nat := 0x1006

def LF_ENUM : Nat := 0x1007

def LF_PROCEDURE : Nat := 0x1008

def LF_MFUNCTION : Nat := 0x1009

def LF_ARGLIST : Nat := 0x1201

def LF_FIELDLIST : Nat := 0x1203

def LF_BITFIELD : Nat := 0x1205

def LF_BCLASS : Nat := 0x1400

def LF_ENUMERATE : Nat := 0x1403

def LF_INDEX : Nat := 0x1405

def LF_MEMBER : Nat := 0x1406

def LF_STMEMBER : Nat := 0x1407

def LF_METHOD : Nat := 0x1408

def LF_NESTTYPE : Nat := 0x1409

def LF_VFUNCTAB : Nat := 0x140a

def LF_ONEMETHOD : Nat := 0x140c

def LF_ARRAY_newformat : Nat := 0x1503

def LF_CLASS_newformat : Nat := 0x1504

def LF_STRUCTURE_newformat : Nat := 0x1505

def LF_UNION_newformat : Nat := 0x1506

def LF_ENUM_newformat : Nat := 0x1507

def LF_MEMBER_newformat : Nat := 0x150d

def LF_STMEMBER_newformat : Nat := 0x150e

def LF_METHOD_newformat : Nat := 0x150f

def LF_NESTTYPE_newformat : Nat := 0x1510

def LF_ONEMETHOD_newformat : Nat := 0x1511

def TPIStreamVersionV70 : Nat := 19990903

def TPIStreamVersionV80 : Nat := 20040203

/-- Embeds `streams.TypeRecord`. -/
structure TypeRecord where
  Index : Nat
  Kind : Nat
  Data : List Nat
deriving DecidableEq, Repr

/-- Embeds `streams.TPIHeader` (field values as read, little-endian). -/
structure TPIHeader where
  Version : Nat
  HeaderSize : Nat
  TypeIndexBegin : Nat
  TypeIndexEnd : Nat
  TypeRecordBytes : Nat
  HashStreamIndex : Nat
  HashAuxStreamIndex : Nat
  HashKeySize : Nat
  NumHashBuckets : Nat
  HashValueBufferOffset : Nat
  HashValueBufferLength : Nat
  IndexOffsetBufferOffset : Nat
  IndexOffsetBufferLength : Nat
  HashAdjBufferOffset : Nat
  HashAdjBufferLength : Nat
deriving DecidableEq, Repr

/-- Embeds `streams.TPIStream`.  The Go `typeMap` assigns each parsed
record to its type index, later inserts overwriting earlier ones;
it is recovered from the record list by `GetType` below. -/
structure TPIStream where
  Header : TPIHeader
  TypeRecords : List TypeRecord
deriving DecidableEq, Repr

/-- Embeds `TPIStream.GetType`: map lookup with Go overwrite semantics
(the last record inserted for an index wins). -/
def GetType (t : TPIStream) (index : Nat) : Option TypeRecord :=
  t.TypeRecords.reverse.find? (fun r => r.Index == index)

/-- Decode the 56-byte TPI header. -/
def readTPIHeader (data : List Nat) : TPIHeader where
  Version := u32at data 0
  HeaderSize := u32at data 4
  TypeIndexBegin := u32at data 8
  TypeIndexEnd := u32at data 12
  TypeRecordBytes := u32at data 16
  HashStreamIndex := u16at data 20
  HashAuxStreamIndex := u16at data 22
  HashKeySize := u32at data 24
  NumHashBuckets := u32at data 28
  HashValueBufferOffset := u32at data 32
  HashValueBufferLength := u32at data 36
  IndexOffsetBufferOffset := u32at data 40
  IndexOffsetBufferLength := u32at data 44
  HashAdjBufferOffset := u32at data 48
  HashAdjBufferLength := u32at data 52

/-- Record-iteration loop of `ReadTPIStream`.  The Go loop increments
`typeIndex` every iteration and stops when it reaches `tiEnd`, so fuel
`tiEnd - typeIndex` makes fuel exhaustion coincide exactly with the
loop condition `typeIndex < tiEnd` turning false. -/
def tpiLoop : Nat → List Nat → Nat → Nat → Nat → List TypeRecord
  | 0, _, _, _, _ => []
  | fuel+1, rd, offset, ti, tiEnd =>
    if offset < rd.length ∧ ti < tiEnd then
      if offset + 2 > rd.length then []
      else
        let recLen := u16at rd offset
        let offset1 := offset + 2
        if offset1 + recLen > rd.length then []
        else if recLen < 2 then tpiLoop fuel rd offset1 (ti+1) tiEnd
        else
          let recKind := u16at rd offset1
          { Index := ti, Kind := recKind, Data := (rd.drop (offset1+2)).take (recLen-2) } ::
            tpiLoop fuel rd (offset1 + recLen) (ti+1) tiEnd
    else []

/-- Embeds `streams.ReadTPIStream`. -/
def ReadTPIStream (data : List Nat) : Except String TPIStream :=
  if data.length < 56 then Except.error "failed to read TPI header"
  else
    let header := readTPIHeader data
    if header.Version ≠ TPIStreamVersionV80 ∧ header.Version ≠ TPIStreamVersionV70 then
      Except.error "unsupported TPI version"
    else if data.length < 56 + header.TypeRecordBytes then
      Except.error "failed to read type records"
    else
      let recordData := (data.drop 56).take header.TypeRecordBytes
      Except.ok
        { Header := header
          TypeRecords :=
            tpiLoop (header.TypeIndexEnd - header.TypeIndexBegin) recordData 0
              header.TypeIndexBegin header.TypeIndexEnd }

/-! ### CodeView type resolver (`codeview/types.go`)

`ResolveType` recurses through the type graph with no guard in the Go
sources; the embedding threads a fuel that strictly decreases on every
call, with `none` standing for the cut-off of a (possibly divergent)
deeper recursion. -/

/-- Embeds `TypeResolver.resolveStructure` (non-recursive). -/
def resolveStructure (data : List Nat) (kind : String) : String :=
  if data.length < 18 then kind ++ "<?>"
  else
    let consumed := (ParseNumeric (data.drop 16)).2
    let nameOffset := 16 + consumed
    if nameOffset < data.length then
      let name := (ParseString (data.drop nameOffset)).1
      if name ≠ "" then name else kind
    else kind

/-- Embeds `TypeResolver.resolveEnum` (non-recursive). -/
def resolveEnum (data : List Nat) : String :=
  if data.length < 12 then "enum<?>"
  else if data.length > 12 then
    let name := (ParseString (data.drop 12)).1
    if name ≠ "" then name else "enum"
  else "enum"

mutual

/-- Embeds `TypeResolver.ResolveType`. -/
def ResolveType (fuel : Nat) (tpi : Option TPIStream) (typeIdx : Nat) : Option String :=
  match fuel with
  | 0 => none
  | f+1 =>
    if typeIdx < TypeIndexBegin then some (GetBuiltinTypeName typeIdx)
    else
      match tpi with
      | none => some ("type_0x" ++ natToHex typeIdx)
      | some t =>
        match GetType t typeIdx with
        | none => some ("type_0x" ++ natToHex typeIdx)
        | some rec => resolveTypeRecord f tpi rec

/-- Embeds `TypeResolver.resolveTypeRecord` (the kind dispatch). -/
def resolveTypeRecord (fuel : Nat) (tpi : Option TPIStream) (rec : TypeRecord) :
    Option String :=
  match fuel with
  | 0 => none
  | f+1 =>
    if rec.Kind == LF_POINTER then resolvePointer f tpi rec.Data
    else if rec.Kind == LF_ARRAY ∨ rec.Kind == LF_ARRAY_newformat then
      resolveArray f tpi rec.Data
    else if rec.Kind == LF_PROCEDURE then resolveProcedure f tpi rec.Data
    else if rec.Kind == LF_MFUNCTION then resolveMemberFunction f tpi rec.Data
    else if rec.Kind == LF_STRUCTURE ∨ rec.Kind == LF_STRUCTURE_newformat then
      some (resolveStructure rec.Data "struct")
    else if rec.Kind == LF_CLASS ∨ rec.Kind == LF_CLASS_newformat then
      some (resolveStructure rec.Data "class")
    else if rec.Kind == LF_UNION ∨ rec.Kind == LF_UNION_newformat then
      some (resolveStructure rec.Data "union")
    else if rec.Kind == LF_ENUM ∨ rec.Kind == LF_ENUM_newformat then
      some (resolveEnum rec.Data)
    else if rec.Kind == LF_MODIFIER then resolveModifier f tpi rec.Data
    else if rec.Kind == LF_ARGLIST then resolveArgList f tpi rec.Data
    else if rec.Kind == LF_BITFIELD then resolveBitfield f tpi rec.Data
    else some ("type_0x" ++ natToHex rec.Index)

/-- Embeds `TypeResolver.resolvePointer`. -/
def resolvePointer (fuel : Nat) (tpi : Option TPIStream) (data : List Nat) :
    Option String :=
  match fuel with
  | 0 => none
  | f+1 =>
    if data.length < 8 then some "ptr<?>"
    else
      let underlyingType := u32at data 0
      let attrs := u32at data 4
      let ptrKind := attrs % 32
      let ptrMode := (attrs / 32) % 8
      let isConst := (attrs / 1024) % 2
      let isVolatile := (attrs / 2048) % 2
      do
        let underlyingStr ← ResolveType f tpi underlyingType
        let suffix := if ptrKind == 1 then " far*" else if ptrKind == 2 then " huge*" else "*"
        let suffix := if ptrMode == 1 then "&" else if ptrMode == 2 then "&&" else suffix
        let result := underlyingStr ++ suffix
        let result := if isConst ≠ 0 then "const " ++ result else result
        let result := if isVolatile ≠ 0 then "volatile " ++ result else result
        some result

/-- Embeds `TypeResolver.resolveArray`. -/
def resolveArray (fuel : Nat) (tpi : Option TPIStream) (data : List Nat) :
    Option String :=
  match fuel with
  | 0 => none
  | f+1 =>
    if data.length < 8 then some "array<?>"
    else do
      let elemStr ← ResolveType f tpi (u32at data 0)
      let size := (ParseNumeric (data.drop 8)).1
      if size > 0 then some (elemStr ++ "[" ++ toString size ++ "]")
      else some (elemStr ++ "[]")

/-- Embeds `TypeResolver.resolveProcedure`. -/
def resolveProcedure (fuel : Nat) (tpi : Option TPIStream) (data : List Nat) :
    Option String :=
  match fuel with
  | 0 => none
  | f+1 =>
    if data.length < 12 then some "func<?>"
    else do
      let retStr ← ResolveType f tpi (u32at data 0)
      let argStr ← ResolveType f tpi (u32at data 8)
      some (retStr ++ " (" ++ argStr ++ ")")

/-- Embeds `TypeResolver.resolveMemberFunction`. -/
def resolveMemberFunction (fuel : Nat) (tpi : Option TPIStream) (data : List Nat) :
    Option String :=
  match fuel with
  | 0 => none
  | f+1 =>
    if data.length < 24 then some "mfunc<?>"
    else do
      let retStr ← ResolveType f tpi (u32at data 0)
      let classStr ← ResolveType f tpi (u32at data 4)
      let argStr ← ResolveType f tpi (u32at data 16)
      some (classStr ++ "::" ++ retStr ++ " (" ++ argStr ++ ")")

/-- Embeds `TypeResolver.resolveModifier`. -/
def resolveModifier (fuel : Nat) (tpi : Option TPIStream) (data : List Nat) :
    Option String :=
  match fuel with
  | 0 => none
  | f+1 =>
    if data.length < 6 then some "mod<?>"
    else do
      let modStr ← ResolveType f tpi (u32at data 0)
      let modifiers := u16at data 4
      let modStr := if modifiers % 2 ≠ 0 then "const " ++ modStr else modStr
      let modStr := if (modifiers / 2) % 2 ≠ 0 then "volatile " ++ modStr else modStr
      let modStr := if (modifiers / 4) % 2 ≠ 0 then "unaligned " ++ modStr else modStr
      some modStr

/-- Argument loop of `TypeResolver.resolveArgList`. -/
def argListLoop (fuel : Nat) (tpi : Option TPIStream) (data : List Nat)
    (remaining : Nat) (offset : Nat) (args : List String) : Option (List String) :=
  match fuel with
  | 0 => none
  | f+1 =>
    match remaining with
    | 0 => some args
    | r+1 =>
      if offset + 4 ≤ data.length then do
        let argStr ← ResolveType f tpi (u32at data offset)
        argListLoop f tpi data r (offset + 4) (args ++ [argStr])
      else some args

/-- Embeds `TypeResolver.resolveArgList`. -/
def resolveArgList (fuel : Nat) (tpi : Option TPIStream) (data : List Nat) :
    Option String :=
  match fuel with
  | 0 => none
  | f+1 =>
    if data.length < 4 then some ""
    else
      let count := u32at data 0
      if count == 0 then some "void"
      else do
        let args ← argListLoop f tpi data count 4 []
        some (String.intercalate ", " args)

/-- Embeds `TypeResolver.resolveBitfield`. -/
def resolveBitfield (fuel : Nat) (tpi : Option TPIStream) (data : List Nat) :
    Option String :=
  match fuel with
  | 0 => none
  | f+1 =>
    if data.length < 6 then some "bitfield<?>"
    else do
      let baseStr ← ResolveType f tpi (u32at data 0)
      some (baseStr ++ " : " ++ toString (data.getD 4 0) ++ " (pos " ++
        toString (data.getD 5 0) ++ ")")

end

/-- Embeds `codeview.ParsedMember`. -/
structure ParsedMember where
  Name : String
  TypeIdx : Nat
  TypeName : String
  Offset : Nat
deriving DecidableEq, Repr

/-- Embeds `codeview.alignTo` with alignment 4. -/
def alignTo4 (offset : Nat) : Nat := ((offset + 3) / 4) * 4

/-- Loop of `TypeResolver.parseFieldList`.  The Go function recurses into
continuation field lists (`LF_INDEX`) with no visited set or depth
bound; the embedding decrements fuel on every loop step and every
continuation, `none` standing for a computation that exceeds any given
depth (in particular, Go-level nontermination shows up as
`∀ fuel, result = none`). -/
def pflLoop (fuel : Nat) (tpi : Option TPIStream) (data : List Nat)
    (offset : Nat) (members : List ParsedMember) : Option (List ParsedMember) :=
  match fuel with
  | 0 => none
  | f+1 =>
    if offset < data.length then
      if offset + 2 > data.length then some members
      else
        let leafKind := u16at data offset
        let offset := offset + 2
        if leafKind == LF_MEMBER ∨ leafKind == LF_MEMBER_newformat then
          if offset + 8 > data.length then some members
          else
            let typeIdx := u32at data (offset + 2)
            let offset := offset + 6
            let (memberOffset, consumed) := ParseNumeric (data.drop offset)
            let offset := offset + consumed
            if offset ≥ data.length then pflLoop f tpi data (alignTo4 offset) members
            else
              let (name, nameLen) := ParseString (data.drop offset)
              let offset := offset + nameLen
              do
                let typeName ← ResolveType f tpi typeIdx
                pflLoop f tpi data (alignTo4 offset)
                  (members ++ [{ Name := name, TypeIdx := typeIdx,
                                 TypeName := typeName, Offset := memberOffset }])
        else if leafKind == LF_STMEMBER ∨ leafKind == LF_STMEMBER_newformat then
          if offset + 6 > data.length then some members
          else
            let typeIdx := u32at data (offset + 2)
            let offset := offset + 6
            if offset ≥ data.length then pflLoop f tpi data (alignTo4 offset) members
            else
              let (name, nameLen) := ParseString (data.drop offset)
              let offset := offset + nameLen
              do
                let typeName ← ResolveType f tpi typeIdx
                pflLoop f tpi data (alignTo4 offset)
                  (members ++ [{ Name := name, TypeIdx := typeIdx,
                                 TypeName := typeName ++ " (static)", Offset := 0 }])
        else if leafKind == LF_METHOD ∨ leafKind == LF_METHOD_newformat then
          if offset + 6 > data.length then some members
          else
            let offset := offset + 6
            if offset ≥ data.length then pflLoop f tpi data (alignTo4 offset) members
            else
              let nameLen := (ParseString (data.drop offset)).2
              pflLoop f tpi data (alignTo4 (offset + nameLen)) members
        else if leafKind == LF_ONEMETHOD ∨ leafKind == LF_ONEMETHOD_newformat then
          if offset + 6 > data.length then some members
          else
            let offset := offset + 6
            if offset ≥ data.length then pflLoop f tpi data (alignTo4 offset) members
            else
              let nameLen := (ParseString (data.drop offset)).2
              pflLoop f tpi data (alignTo4 (offset + nameLen)) members
        else if leafKind == LF_NESTTYPE ∨ leafKind == LF_NESTTYPE_newformat then
          if offset + 6 > data.length then some members
          else
            let offset := offset + 6
            if offset ≥ data.length then pflLoop f tpi data (alignTo4 offset) members
            else
              let nameLen := (ParseString (data.drop offset)).2
              pflLoop f tpi data (alignTo4 (offset + nameLen)) members
        else if leafKind == LF_BCLASS then
          if offset + 8 > data.length then some members
          else
            let typeIdx := u32at data (offset + 2)
            let offset := offset + 6
            let (baseOffset, consumed) := ParseNumeric (data.drop offset)
            let offset := offset + consumed
            do
              let typeName ← ResolveType f tpi typeIdx
              pflLoop f tpi data (alignTo4 offset)
                (members ++ [{ Name := "(base)", TypeIdx := typeIdx,
                               TypeName := typeName, Offset := baseOffset }])
        else if leafKind == LF_VFUNCTAB then
          if offset + 6 > data.length then some members
          else pflLoop f tpi data (alignTo4 (offset + 6)) members
        else if leafKind == LF_ENUMERATE then
          if offset + 2 > data.length then some members
          else
            let offset := offset + 2
            let consumed := (ParseNumeric (data.drop offset)).2
            let offset := offset + consumed
            if offset ≥ data.length then pflLoop f tpi data (alignTo4 offset) members
            else
              let nameLen := (ParseString (data.drop offset)).2
              pflLoop f tpi data (alignTo4 (offset + nameLen)) members
        else if leafKind == LF_INDEX then
          if offset + 6 > data.length then some members
          else
            let contIdx := u32at data (offset + 2)
            let offset := offset + 6
            if contIdx ≥ TypeIndexBegin then
              match tpi with
              | some t =>
                match GetType t contIdx with
                | some contRec =>
                  if contRec.Kind == LF_FIELDLIST then do
                    let contMembers ← pflLoop f tpi contRec.Data 0 []
                    pflLoop f tpi data (alignTo4 offset) (members ++ contMembers)
                  else pflLoop f tpi data (alignTo4 offset) members
                | none => pflLoop f tpi data (alignTo4 offset) members
              | none => pflLoop f tpi data (alignTo4 offset) members
            else pflLoop f tpi data (alignTo4 offset) members
        else if 0xF0 ≤ leafKind ∧ leafKind ≤ 0xFF then
          pflLoop f tpi data (alignTo4 (offset + leafKind % 16 - 2)) members
        else some members
    else some members

/-- Embeds `TypeResolver.parseFieldList`. -/
def parseFieldList (fuel : Nat) (tpi : Option TPIStream) (data : List Nat) :
    Option (List ParsedMember) :=
  pflLoop fuel tpi data 0 []

/-- Loop of `TypeResolver.parseEnumFieldList` (same unguarded
continuation recursion as `pflLoop`). -/
def peflLoop (fuel : Nat) (tpi : Option TPIStream) (data : List Nat)
    (offset : Nat) (members : List ParsedMember) : Option (List ParsedMember) :=
  match fuel with
  | 0 => none
  | f+1 =>
    if offset < data.length then
      if offset + 2 > data.length then some members
      else
        let leafKind := u16at data offset
        let offset := offset + 2
        if leafKind == LF_ENUMERATE then
          if offset + 2 > data.length then some members
          else
            let offset := offset + 2
            let (value, consumed) := ParseNumeric (data.drop offset)
            let offset := offset + consumed
            if offset ≥ data.length then some members
            else
              match (data.drop offset).findIdx? (· == 0) with
              | none =>
                let name := bytesToString (data.drop offset)
                peflLoop f tpi data (alignTo4 data.length)
                  (members ++ [{ Name := name, TypeIdx := 0,
                                 TypeName := toString value, Offset := value }])
              | some idx =>
                let name := bytesToString ((data.drop offset).take idx)
                peflLoop f tpi data (alignTo4 (offset + idx + 1))
                  (members ++ [{ Name := name, TypeIdx := 0,
                                 TypeName := toString value, Offset := value }])
        else if leafKind == LF_INDEX then
          if offset + 6 > data.length then some members
          else
            let contIdx := u32at data (offset + 2)
            let offset := offset + 6
            if contIdx ≥ TypeIndexBegin then
              match tpi with
              | some t =>
                match GetType t contIdx with
                | some contRec =>
                  if contRec.Kind == LF_FIELDLIST then do
                    let contMembers ← peflLoop f tpi contRec.Data 0 []
                    peflLoop f tpi data (alignTo4 offset) (members ++ contMembers)
                  else peflLoop f tpi data (alignTo4 offset) members
                | none => peflLoop f tpi data (alignTo4 offset) members
              | none => peflLoop f tpi data (alignTo4 offset) members
            else peflLoop f tpi data (alignTo4 offset) members
        else if 0xF0 ≤ leafKind ∧ leafKind ≤ 0xFF then
          peflLoop f tpi data (alignTo4 (offset + leafKind % 16 - 2)) members
        else some members
    else some members

/-- Embeds `TypeResolver.parseEnumFieldList`. -/
def parseEnumFieldList (fuel : Nat) (tpi : Option TPIStream) (data : List Nat) :
    Option (List ParsedMember) :=
  peflLoop fuel tpi data 0 []

/-! ### CodeView symbol records (`codeview/symbols.go`) -/

/-- Embeds `codeview.ProcSym`. -/
structure ProcSym where
  Parent : Nat
  End : Nat
  Next : Nat
  Length : Nat
  DbgStart : Nat
  DbgEnd : Nat
  TypeIndex : Nat
  Offset : Nat
  Segment : Nat
  Flags : Nat
  Name : String
deriving DecidableEq, Repr

/-- Outcome of `ParseProcSym`: the Go error for a short payload, a Go
runtime index-out-of-range panic, or a parsed record. -/
inductive ProcParseResult where
  | tooSmall : ProcParseResult
  | outOfRange : ProcParseResult
  | ok : ProcSym → ProcParseResult
deriving DecidableEq, Repr

/-- Embeds `codeview.ParseProcSym`.  The Go code guards `len(data) < 32`
but then reads `data[32:34]` and `data[34]`; reads past the end of the
slice are the `outOfRange` outcome. -/
def ParseProcSym (data : List Nat) : ProcParseResult :=
  if data.length < 32 then .tooSmall
  else
    match readU16 data 32, readU8 data 34 with
    | some seg, some flags =>
      let nm :=
        if data.length > 35 then
          match (data.drop 35).findIdx? (· == 0) with
          | none => bytesToString (data.drop 35)
          | some idx => bytesToString ((data.drop 35).take idx)
        else ""
      .ok { Parent := u32at data 0, End := u32at data 4, Next := u32at data 8,
            Length := u32at data 12, DbgStart := u32at data 16, DbgEnd := u32at data 20,
            TypeIndex := u32at data 24, Offset := u32at data 28,
            Segment := seg, Flags := flags, Name := nm }
    | _, _ => .outOfRange

/-! ### DBI stream (`streams/dbi.go`) -/

/-- Outcome of a Go function that can return an error or hit a runtime
panic. -/
inductive GoResult (α : Type) where
  | panicked : GoResult α
  | failed : String → GoResult α
  | ok : α → GoResult α
deriving Repr

instance : Monad GoResult where
  pure := .ok
  bind x f :=
    match x with
    | .panicked => .panicked
    | .failed m => .failed m
    | .ok a => f a

/-- Whether a `GoResult` is a successful return. -/
def GoResult.isOk {α : Type} : GoResult α → Bool
  | .ok _ => true
  | _ => false

/-- Whether a `GoResult` is an error return (not a panic). -/
def GoResult.isFailed {α : Type} : GoResult α → Bool
  | .failed _ => true
  | _ => false

/-- Go `int32` reinterpretation of a raw little-endian u32 value. -/
def i32val (v : Nat) : Int := if v < 2^31 then (v : Int) else (v : Int) - 2^32

/-- Embeds `streams.DBIHeader` (raw little-endian field values;
`int32` fields are reinterpreted via `i32val` at use sites). -/
structure DBIHeader where
  VersionSignature : Nat
  VersionHeader : Nat
  Age : Nat
  GlobalStreamIndex : Nat
  BuildNumber : Nat
  PublicStreamIndex : Nat
  PdbDllVersion : Nat
  SymRecordStream : Nat
  PdbDllRbld : Nat
  ModInfoSize : Nat
  SectionContributionSize : Nat
  SectionMapSize : Nat
  SourceInfoSize : Nat
  TypeServerMapSize : Nat
  MFCTypeServerIndex : Nat
  OptionalDbgHeaderSize : Nat
  ECSubstreamSize : Nat
  Flags : Nat
  Machine : Nat
  Padding : Nat
deriving DecidableEq, Repr

/-- Decode the 64-byte DBI header. -/
def readDBIHeader (data : List Nat) : DBIHeader where
  VersionSignature := u32at data 0
  VersionHeader := u32at data 4
  Age := u32at data 8
  GlobalStreamIndex := u16at data 12
  BuildNumber := u16at data 14
  PublicStreamIndex := u16at data 16
  PdbDllVersion := u16at data 18
  SymRecordStream := u16at data 20
  PdbDllRbld := u16at data 22
  ModInfoSize := u32at data 24
  SectionContributionSize := u32at data 28
  SectionMapSize := u32at data 32
  SourceInfoSize := u32at data 36
  TypeServerMapSize := u32at data 40
  MFCTypeServerIndex := u32at data 44
  OptionalDbgHeaderSize := u32at data 48
  ECSubstreamSize := u32at data 52
  Flags := u16at data 56
  Machine := u16at data 58
  Padding := u32at data 60

/-- Embeds `streams.SectionContrib` (raw field values). -/
structure SectionContrib where
  Section : Nat
  Padding1 : Nat
  Offset : Nat
  Size : Nat
  Characteristics : Nat
  ModuleIndex : Nat
  Padding2 : Nat
  DataCrc : Nat
  RelocCrc : Nat
deriving DecidableEq, Repr, Inhabited

/-- Embeds `streams.SectionMapEntry`. -/
structure SectionMapEntry where
  Flags : Nat
  Ovl : Nat
  Group : Nat
  Frame : Nat
  SectionName : Nat
  ClassName : Nat
  Offset : Nat
  SectionLength : Nat
deriving DecidableEq, Repr, Inhabited

/-- Embeds `streams.ModuleInfo`. -/
structure ModuleInfo where
  Unused1 : Nat
  SectionContrib : SectionContrib
  Flags : Nat
  ModuleSymStream : Nat
  SymByteSize : Nat
  C11ByteSize : Nat
  C13ByteSize : Nat
  SourceFileCount : Nat
  Padding : Nat
  Unused2 : Nat
  SourceFileNameIndex : Nat
  PdbFilePathNameIndex : Nat
  ModuleName : String
  ObjFileName : String
deriving DecidableEq, Repr

/-- Embeds `streams.OptionalDebugHeader`. -/
structure OptionalDebugHeader where
  FPO : Nat
  Exception : Nat
  Fixup : Nat
  OmapToSrc : Nat
  OmapFromSrc : Nat
  SectionHdr : Nat
  TokenRidMap : Nat
  Xdata : Nat
  Pdata : Nat
  NewFPO : Nat
  SectionHdrOrig : Nat
deriving DecidableEq, Repr

/-- Embeds `streams.PESectionHeader`. -/
structure PESectionHeader where
  Name : List Nat
  VirtualSize : Nat
  VirtualAddress : Nat
  SizeOfRawData : Nat
  PointerToRawData : Nat
  PointerToRelocations : Nat
  PointerToLinenumbers : Nat
  NumberOfRelocations : Nat
  NumberOfLinenumbers : Nat
  Characteristics : Nat
deriving DecidableEq, Repr, Inhabited

/-- Embeds `streams.DBIStream`. -/
structure DBIStream where
  Header : DBIHeader
  Modules : List ModuleInfo
  SectionContribs : List SectionContrib
  SectionMap : List SectionMapEntry
  DebugHeader : Option OptionalDebugHeader
deriving DecidableEq, Repr

/-- Loop of `streams.parseModuleInfo`.  Every iteration consumes at
least 64 bytes, so fuel `data.length + 1` is never exhausted. -/
def modInfoLoop (fuel : Nat) (data : List Nat) (offset : Nat) (acc : List ModuleInfo) :
    List ModuleInfo :=
  match fuel with
  | 0 => acc
  | f+1 =>
    if offset < data.length then
      if offset + 64 > data.length then acc
      else
        let contrib : SectionContrib :=
          { Section := u16at data (offset+4), Padding1 := u16at data (offset+6),
            Offset := u32at data (offset+8), Size := u32at data (offset+12),
            Characteristics := u32at data (offset+16), ModuleIndex := u16at data (offset+20),
            Padding2 := u16at data (offset+22), DataCrc := u32at data (offset+24),
            RelocCrc := u32at data (offset+28) }
        let offset1 := offset + 64
        if offset1 ≥ data.length then acc
        else
          match (data.drop offset1).findIdx? (· == 0) with
          | none => acc
          | some mn =>
            let moduleName := bytesToString ((data.drop offset1).take mn)
            let offset2 := offset1 + mn + 1
            if offset2 ≥ data.length then acc
            else
              match (data.drop offset2).findIdx? (· == 0) with
              | none => acc
              | some objn =>
                let objName := bytesToString ((data.drop offset2).take objn)
                let offset3 := offset2 + objn + 1
                let entry : ModuleInfo :=
                  { Unused1 := u32at data offset, SectionContrib := contrib,
                    Flags := u16at data (offset+32), ModuleSymStream := u16at data (offset+34),
                    SymByteSize := u32at data (offset+36), C11ByteSize := u32at data (offset+40),
                    C13ByteSize := u32at data (offset+44),
                    SourceFileCount := u16at data (offset+48), Padding := u16at data (offset+50),
                    Unused2 := u32at data (offset+52),
                    SourceFileNameIndex := u32at data (offset+56),
                    PdbFilePathNameIndex := u32at data (offset+60),
                    ModuleName := moduleName, ObjFileName := objName }
                modInfoLoop f data (((offset3 + 3) / 4) * 4) (acc ++ [entry])
    else acc

/-- Embeds `streams.parseModuleInfo` (never returns an error in Go). -/
def parseModuleInfo (data : List Nat) : List ModuleInfo :=
  modInfoLoop (data.length + 1) data 0 []

/-- Entry loop of `streams.parseSectionContribs`.  The entry count is
computed from the buffer length, so the Go per-field reads cannot fall
short; a per-entry bounds check models the byte-reader faithfully. -/
def secContribLoop (count : Nat) (entrySize : Nat) (data : List Nat) (cursor : Nat)
    (acc : List SectionContrib) : List SectionContrib :=
  match count with
  | 0 => acc
  | c+1 =>
    if cursor + 28 ≤ data.length then
      let e : SectionContrib :=
        { Section := u16at data cursor, Padding1 := u16at data (cursor+2),
          Offset := u32at data (cursor+4), Size := u32at data (cursor+8),
          Characteristics := u32at data (cursor+12), ModuleIndex := u16at data (cursor+16),
          Padding2 := u16at data (cursor+18), DataCrc := u32at data (cursor+20),
          RelocCrc := u32at data (cursor+24) }
      secContribLoop c entrySize data (cursor + entrySize) (acc ++ [e])
    else acc

/-- Embeds `streams.parseSectionContribs`. -/
def parseSectionContribs (data : List Nat) : List SectionContrib :=
  if data.length < 4 then []
  else
    let version := u32at data 0
    let entrySize := if version == 0xeffe0000 + 20140516 then 32 else 28
    secContribLoop ((data.length - 4) / entrySize) entrySize data 4 []

/-- Entry loop of `streams.parseSectionMap`. -/
def secMapLoop (count : Nat) (data : List Nat) (cursor : Nat)
    (acc : List SectionMapEntry) : List SectionMapEntry :=
  match count with
  | 0 => acc
  | c+1 =>
    if cursor + 20 ≤ data.length then
      let e : SectionMapEntry :=
        { Flags := u16at data cursor, Ovl := u16at data (cursor+2),
          Group := u16at data (cursor+4), Frame := u16at data (cursor+6),
          SectionName := u16at data (cursor+8), ClassName := u16at data (cursor+10),
          Offset := u32at data (cursor+12), SectionLength := u32at data (cursor+16) }
      secMapLoop c data (cursor + 20) (acc ++ [e])
    else acc

/-- Embeds `streams.parseSectionMap` (truncated maps are clamped, with
the Go `uint16` conversion of the clamped count). -/
def parseSectionMap (data : List Nat) : List SectionMapEntry :=
  if data.length < 4 then []
  else
    let count := u16at data 0
    let expectedSize := 4 + count * 20
    let count1 := if data.length < expectedSize then ((data.length - 4) / 20) % 65536 else count
    secMapLoop count1 data 4 []

/-- Embeds `streams.ParseOptionalDebugHeader`. -/
def ParseOptionalDebugHeader (data : List Nat) : Option OptionalDebugHeader :=
  if data.length < 22 then none
  else some
    { FPO := u16at data 0, Exception := u16at data 2, Fixup := u16at data 4,
      OmapToSrc := u16at data 6, OmapFromSrc := u16at data 8, SectionHdr := u16at data 10,
      TokenRidMap := u16at data 12, Xdata := u16at data 14, Pdata := u16at data 16,
      NewFPO := u16at data 18, SectionHdrOrig := u16at data 20 }

/-- Embeds `streams.ParseSectionHeaders`: packed 40-byte entries. -/
def ParseSectionHeaders (data : List Nat) : List PESectionHeader :=
  (List.range (data.length / 40)).map fun k =>
    let i := 40 * k
    { Name := (data.drop i).take 8, VirtualSize := u32at data (i+8),
      VirtualAddress := u32at data (i+12), SizeOfRawData := u32at data (i+16),
      PointerToRawData := u32at data (i+20), PointerToRelocations := u32at data (i+24),
      PointerToLinenumbers := u32at data (i+28), NumberOfRelocations := u16at data (i+32),
      NumberOfLinenumbers := u16at data (i+34), Characteristics := u32at data (i+36) }

/-- Extract the substream at `[off, off+size)` as `ReadDBIStream` does:
sizes `≤ 0` and substreams running past the buffer are skipped (the
empty slice parses to the empty result, as in Go), and a negative start
offset (possible when an earlier declared size is negative) would make
the Go slice expression panic. -/
def substreamSlice (data : List Nat) (off size : Int) : GoResult (List Nat) :=
  if 0 < size then
    if off + size ≤ (data.length : Int) then
      if 0 ≤ off then .ok ((data.drop off.toNat).take size.toNat)
      else .panicked
    else .ok []
  else .ok []

/-- Embeds `streams.ReadDBIStream`. -/
def ReadDBIStream (data : List Nat) : GoResult DBIStream :=
  if data.length < 64 then .failed "DBI stream too small"
  else
    let header := readDBIHeader data
    if header.VersionSignature ≠ 0xFFFFFFFF then .failed "invalid DBI version signature"
    else do
      let misz := i32val header.ModInfoSize
      let scsz := i32val header.SectionContributionSize
      let smsz := i32val header.SectionMapSize
      let sisz := i32val header.SourceInfoSize
      let tsmsz := i32val header.TypeServerMapSize
      let ecsz := i32val header.ECSubstreamSize
      let odhsz := i32val header.OptionalDbgHeaderSize
      let modSub ← substreamSlice data 64 misz
      let contribSub ← substreamSlice data (64 + misz) scsz
      let mapSub ← substreamSlice data (64 + misz + scsz) smsz
      let dbgSub ← substreamSlice data (64 + misz + scsz + smsz + sisz + tsmsz + ecsz) odhsz
      pure { Header := header, Modules := parseModuleInfo modSub,
             SectionContribs := parseSectionContribs contribSub,
             SectionMap := parseSectionMap mapSub,
             DebugHeader := ParseOptionalDebugHeader dbgSub }

/-! ### MSF container (`msf/superblock.go`, `msf/stream.go`, MSF open) -/

/-- The 32-byte MSF 7.00 magic. -/
def MSFMagic : List Nat :=
  [77,105,99,114,111,115,111,102,116,32,67,47,67,43,43,32,
   77,83,70,32,55,46,48,48,13,10,26,68,83,0,0,0]

/-- Embeds `msf.SuperBlock`. -/
structure SuperBlock where
  Magic : List Nat
  BlockSize : Nat
  FreeBlockMapBlock : Nat
  NumBlocks : Nat
  NumDirectoryBytes : Nat
  Unknown : Nat
  BlockMapAddr : Nat
deriving DecidableEq, Repr

/-- Embeds `msf.isValidBlockSize`. -/
def isValidBlockSize (size : Nat) : Bool :=
  size == 512 || size == 1024 || size == 2048 || size == 4096

/-- Embeds `msf.ReadSuperBlock` over a byte source read sequentially
from offset 0. -/
def ReadSuperBlock (file : List Nat) : Except String SuperBlock :=
  if file.length < 32 then Except.error "failed to read magic"
  else
    let magic := file.take 32
    if magic ≠ MSFMagic then Except.error "invalid MSF magic: not a valid PDB file"
    else if file.length < 56 then Except.error "failed to read superblock fields"
    else
      let sb : SuperBlock :=
        { Magic := magic, BlockSize := u32at file 32, FreeBlockMapBlock := u32at file 36,
          NumBlocks := u32at file 40, NumDirectoryBytes := u32at file 44,
          Unknown := u32at file 48, BlockMapAddr := u32at file 52 }
      if ¬ isValidBlockSize sb.BlockSize then Except.error "invalid block size"
      else if sb.FreeBlockMapBlock ≠ 1 ∧ sb.FreeBlockMapBlock ≠ 2 then
        Except.error "invalid FreeBlockMapBlock"
      else Except.ok sb

/-- Embeds `SuperBlock.NumDirectoryBlocks` (u32 arithmetic). -/
def NumDirectoryBlocks (sb : SuperBlock) : Nat :=
  ((sb.NumDirectoryBytes + sb.BlockSize - 1) % 4294967296) / sb.BlockSize

/-- Go `os.File.ReadAt` semantics: exactly `n` bytes at `off`, or an
error when the file is too short. -/
def fileReadAt (file : List Nat) (off n : Nat) : Option (List Nat) :=
  if off + n ≤ file.length then some ((file.drop off).take n) else none

/-- Embeds `msf.StreamDirectory`. -/
structure StreamDirectory where
  NumStreams : Nat
  StreamSizes : List Nat
  StreamBlocks : List (List Nat)
deriving DecidableEq, Repr

/-- A stream handle: declared size and block list (`msf.Stream`). -/
structure StreamData where
  size : Nat
  blocks : List Nat
deriving DecidableEq, Repr, Inhabited

/-- Embeds `msf.MSF` over a byte source. -/
structure MSF where
  file : List Nat
  superBlock : SuperBlock
  directory : StreamDirectory
  streams : List StreamData
deriving Repr

/-- Directory-block concatenation loop of `readStreamDirectory`:
`dirData` is pre-allocated with `dirBytes` zero bytes, and unwritten
tail bytes stay zero. -/
def dirLoop (file : List Nat) (bs dirBytes : Nat) :
    List Nat → Nat → List Nat → Option (List Nat)
  | [], bytesRead, acc => some (acc ++ List.replicate (dirBytes - bytesRead) 0)
  | blockIdx :: rest, bytesRead, acc =>
    let toRead := if bytesRead + bs > dirBytes then dirBytes - bytesRead else bs
    if toRead == 0 then dirLoop file bs dirBytes rest bytesRead acc
    else
      match fileReadAt file (blockIdx * bs) toRead with
      | none => none
      | some chunk => dirLoop file bs dirBytes rest (bytesRead + toRead) (acc ++ chunk)

/-- Block-list reading loop of `parseStreamDirectory`. -/
def dirBlocksLoop (bs : Nat) (data : List Nat) :
    List Nat → Nat → List (List Nat) → Except String (List (List Nat))
  | [], _, acc => Except.ok acc
  | size :: rest, cursor, acc =>
    if size == 0xFFFFFFFF then dirBlocksLoop bs data rest cursor (acc ++ [[]])
    else
      let numBlocks := ((size + bs - 1) % 4294967296) / bs
      if cursor + 4 * numBlocks ≤ data.length then
        let blocks := (List.range numBlocks).map (fun j => u32at data (cursor + 4*j))
        dirBlocksLoop bs data rest (cursor + 4 * numBlocks) (acc ++ [blocks])
      else Except.error "failed to read block index"

/-- Embeds `MSF.parseStreamDirectory`. -/
def parseStreamDirectory (bs : Nat) (data : List Nat) : Except String StreamDirectory := do
  if data.length < 4 then throw "failed to read NumStreams"
  let numStreams := u32at data 0
  if data.length < 4 + 4 * numStreams then throw "failed to read stream size"
  let streamSizes := (List.range numStreams).map (fun i => u32at data (4 + 4*i))
  let streamBlocks ← dirBlocksLoop bs data streamSizes (4 + 4 * numStreams) []
  pure { NumStreams := numStreams, StreamSizes := streamSizes, StreamBlocks := streamBlocks }

/-- Embeds `MSF.buildStreams`. -/
def buildStreams (dir : StreamDirectory) : List StreamData :=
  (dir.StreamSizes.zip dir.StreamBlocks).map fun sb =>
    if sb.1 == 0xFFFFFFFF then { size := 0, blocks := [] }
    else { size := sb.1, blocks := sb.2 }

/-- Embeds `msf.Open` over a byte source: superblock, block map,
directory, stream handles. -/
def msfOpen (file : List Nat) : Except String MSF := do
  let sb ← ReadSuperBlock file
  let bs := sb.BlockSize
  let numDirBlocks := NumDirectoryBlocks sb
  let blockMapBytes ←
    match fileReadAt file (sb.BlockMapAddr * bs) (4 * numDirBlocks) with
    | none => throw "failed to read block map"
    | some b => pure b
  let blockMap := (List.range numDirBlocks).map (fun i => u32at blockMapBytes (4*i))
  let dirData ←
    match dirLoop file bs sb.NumDirectoryBytes blockMap 0 [] with
    | none => throw "failed to read directory block"
    | some d => pure d
  let dir ← parseStreamDirectory bs dirData
  pure { file := file, superBlock := sb, directory := dir, streams := buildStreams dir }

/-- Logical stream content (`Stream.ReadAll`): concatenate the blocks,
the last one truncated to the stream size.  Missing blocks or reads
past the end of the file (where the Go reader would return short or
spin at EOF) are a failure. -/
def streamChunks (file : List Nat) (bs : Nat) : List Nat → Nat → Option (List Nat)
  | _, 0 => some []
  | [], _ => none
  | b :: rest, remaining =>
    let chunk := min bs remaining
    match fileReadAt file (b * bs) chunk with
    | none => none
    | some bytes =>
      match streamChunks file bs rest (remaining - chunk) with
      | none => none
      | some tail => some (bytes ++ tail)

/-- Read a whole stream (`Stream.ReadAll`). -/
def streamReadAll (m : MSF) (s : StreamData) : Option (List Nat) :=
  streamChunks m.file m.superBlock.BlockSize s.blocks s.size

/-! ### PDB info stream (`streams/pdbinfo.go`) -/

/-- Embeds `streams.PDBInfo`.  The named-stream map is kept as the
association list in slot order (later keys shadow earlier ones, as Go
map insertion would). -/
structure PDBInfo where
  Version : Nat
  Signature : Nat
  Age : Nat
  GUID : List Nat
  NamedStreams : List (String × Nat)
deriving DecidableEq, Repr

/-- Embeds `streams.isBitSet`. -/
def isBitSet (words : List Nat) (n : Nat) : Bool :=
  if n / 32 ≥ words.length then false
  else ((words.getD (n / 32) 0) / 2 ^ (n % 32)) % 2 ≠ 0

/-- Embeds `streams.extractCString`. -/
def extractCString (data : List Nat) : String :=
  match data.findIdx? (· == 0) with
  | none => bytesToString data
  | some idx => bytesToString (data.take idx)

/-- Key/value loop of `ReadPDBInfo`: iterate the hash-table slots,
reading a pair for every present slot; a short read stops the loop. -/
def nsLoop (data strBuf : List Nat) (strBufSize : Nat) (presentWords : List Nat) :
    Nat → Nat → Nat → List (String × Nat) → List (String × Nat) × Nat
  | 0, _, cursor, acc => (acc, cursor)
  | r+1, i, cursor, acc =>
    if ¬ isBitSet presentWords i then nsLoop data strBuf strBufSize presentWords r (i+1) cursor acc
    else if cursor + 8 ≤ data.length then
      let keyOffset := u32at data cursor
      let streamIndex := u32at data (cursor + 4)
      let acc1 :=
        if keyOffset < strBufSize then
          acc ++ [(extractCString (strBuf.drop keyOffset), streamIndex)]
        else acc
      nsLoop data strBuf strBufSize presentWords r (i+1) (cursor + 8) acc1
    else (acc, cursor)

/-- Embeds `streams.ReadPDBInfo` over the stream content read
sequentially.  Only the fixed header is mandatory; any later short
read returns the information collected so far. -/
def ReadPDBInfo (data : List Nat) : Except String PDBInfo :=
  if data.length < 28 then Except.error "failed to read PDB info header"
  else
    let info : PDBInfo :=
      { Version := u32at data 0, Signature := u32at data 4, Age := u32at data 8,
        GUID := (data.drop 12).take 16, NamedStreams := [] }
    if data.length < 32 then Except.ok info
    else
      let strBufSize := u32at data 28
      if data.length < 32 + strBufSize then Except.ok info
      else
        let strBuf := (data.drop 32) |>.take strBufSize
        let c0 := 32 + strBufSize
        if data.length < c0 + 12 then Except.ok info
        else
          let hashCapacity := u32at data (c0 + 4)
          let presentWordsCount := u32at data (c0 + 8)
          if data.length < c0 + 12 + 4 * presentWordsCount then Except.ok info
          else
            let presentWords :=
              (List.range presentWordsCount).map (fun i => u32at data (c0 + 12 + 4*i))
            let c1 := c0 + 12 + 4 * presentWordsCount
            if data.length < c1 + 4 then Except.ok info
            else
              let deletedWordsCount := u32at data c1
              if data.length < c1 + 4 + 4 * deletedWordsCount then Except.ok info
              else
                let c2 := c1 + 4 + 4 * deletedWordsCount
                let (pairs, _) := nsLoop data strBuf strBufSize presentWords hashCapacity 0 c2 []
                Except.ok { info with NamedStreams := pairs }

/-! ### Facade (`pdb.go`) -/

/-- Stream index of the PDB info stream. -/
def StreamPDB : Nat := 1

/-- Stream index of the TPI stream. -/
def StreamTPI : Nat := 2

/-- Stream index of the DBI stream. -/
def StreamDBI : Nat := 3

/-- Embeds `pdb.PDB` (the fields `Open` populates). -/
structure PDB where
  msf : MSF
  pdbInfo : Option PDBInfo
  tpi : Option TPIStream
  dbi : Option DBIStream
  sectionHeaders : List PESectionHeader
deriving Repr

/-- Embeds `pdb.Open` over a byte source.  Parse errors of the PDB
info, TPI and DBI streams are discarded exactly as in the Go code
(`pdb.tpi, _ = ...`); only an MSF open failure is returned, and a Go
runtime panic inside `ReadDBIStream` would propagate. -/
def pdbOpen (file : List Nat) : GoResult PDB :=
  match msfOpen file with
  | Except.error e => .failed ("failed to open MSF: " ++ e)
  | Except.ok m =>
    let numStreams := m.directory.NumStreams
    let pdbInfo :=
      if numStreams > StreamPDB then
        match streamReadAll m (m.streams.getD StreamPDB default) with
        | none => none
        | some content => (ReadPDBInfo content).toOption
      else none
    let tpi :=
      if numStreams > StreamTPI then
        let s := m.streams.getD StreamTPI default
        if s.size > 0 then
          match streamReadAll m s with
          | some content =>
            match ReadTPIStream content with
            | Except.ok t => some t
            | Except.error _ => none
          | none => none
        else none
      else none
    let dbiR : GoResult (Option DBIStream) :=
      if numStreams > StreamDBI then
        let s := m.streams.getD StreamDBI default
        if s.size > 0 then
          match streamReadAll m s with
          | some content =>
            match ReadDBIStream content with
            | .ok d => .ok (some d)
            | .failed _ => .ok none
            | .panicked => .panicked
          | none => .ok none
        else .ok none
      else .ok none
    match dbiR with
    | .panicked => .panicked
    | .failed e => .failed e
    | .ok dbi =>
      let sectionHeaders :=
        match dbi with
        | some d =>
          match d.DebugHeader with
          | some dh =>
            if dh.SectionHdr ≠ 0xFFFF ∧ numStreams > dh.SectionHdr then
              let s := m.streams.getD dh.SectionHdr default
              if s.size > 0 then
                match streamReadAll m s with
                | some content => ParseSectionHeaders content
                | none => []
              else []
            else []
          | none => []
        | none => []
      .ok { msf := m, pdbInfo := pdbInfo, tpi := tpi, dbi := dbi,
            sectionHeaders := sectionHeaders }

/-- Embeds `PDB.SegmentToRVA`: PE section headers preferred, section
map as fallback, 0 for segment 0 or out of range (u32 addition). -/
def SegmentToRVA (p : PDB) (segment offset : Nat) : Nat :=
  if p.sectionHeaders.length > 0 then
    if segment == 0 ∨ segment > p.sectionHeaders.length then 0
    else ((p.sectionHeaders.getD (segment - 1) default).VirtualAddress + offset) % 4294967296
  else
    match p.dbi with
    | none => 0
    | some d =>
      if d.SectionMap.length == 0 then 0
      else if segment == 0 ∨ segment > d.SectionMap.length then 0
      else ((d.SectionMap.getD (segment - 1) default).Offset + offset) % 4294967296

/-! ### Concrete inputs used to settle the claims -/

/-- Little-endian 16-bit byte encoding. -/
def le16 (n : Nat) : List Nat := [n % 256, n / 256 % 256]

/-- Little-endian 32-bit byte encoding. -/
def le32 (n : Nat) : List Nat :=
  [n % 256, n / 256 % 256, n / 65536 % 256, n / 16777216 % 256]

/-- Field-list bytes: a single `LF_MEMBER` of type `T_INT4` named `c`
at offset 8 (scenario E continuation target). -/
def fl2bytes : List Nat := le16 LF_MEMBER ++ [0,0] ++ le32 0x74 ++ le16 8 ++ [99,0]

/-- Field-list bytes: `LF_MEMBER a @0`, `LF_MEMBER b @4`, then an
`LF_INDEX` continuation to type index `0x1001` (scenario E). -/
def fl1bytes : List Nat :=
  le16 LF_MEMBER ++ [0,0] ++ le32 0x74 ++ le16 0 ++ [97,0] ++
  le16 LF_MEMBER ++ [0,0] ++ le32 0x74 ++ le16 4 ++ [98,0] ++
  le16 LF_INDEX ++ [0,0] ++ le32 0x1001

/-- A TPI header with index range `[0x1000, 0x1002)` and no ancillary
buffers. -/
def tpiHeaderSmall : TPIHeader where
  Version := TPIStreamVersionV70
  HeaderSize := 56
  TypeIndexBegin := 0x1000
  TypeIndexEnd := 0x1002
  TypeRecordBytes := 0
  HashStreamIndex := 0
  HashAuxStreamIndex := 0
  HashKeySize := 0
  NumHashBuckets := 0
  HashValueBufferOffset := 0
  HashValueBufferLength := 0
  IndexOffsetBufferOffset := 0
  IndexOffsetBufferLength := 0
  HashAdjBufferOffset := 0
  HashAdjBufferLength := 0

/-- TPI table for scenario E: index `0x1001` is the continuation
field list `fl2bytes`. -/
def tpiC8 : TPIStream where
  Header := tpiHeaderSmall
  TypeRecords := [{ Index := 0x1001, Kind := LF_FIELDLIST, Data := fl2bytes }]

/-- A self-referential field list: a single `LF_INDEX` continuation
pointing back at the field list's own type index `0x1000`. -/
def cycBytes : List Nat := le16 LF_INDEX ++ [0,0] ++ le32 0x1000

/-- TPI table containing the cyclic field list. -/
def tpiCyc : TPIStream where
  Header := tpiHeaderSmall
  TypeRecords := [{ Index := 0x1000, Kind := LF_FIELDLIST, Data := cycBytes }]

/-- A TPI stream whose record data starts with a zero-length record
(skipped, but consuming a type index) followed by one real record of
kind `0x1234`. -/
def c6data : List Nat :=
  le32 TPIStreamVersionV70 ++ le32 56 ++ le32 0x1000 ++ le32 0x1002 ++ le32 8 ++
  le16 0 ++ le16 0 ++ le32 0 ++ le32 0 ++
  le32 0 ++ le32 0 ++ le32 0 ++ le32 0 ++ le32 0 ++ le32 0 ++
  (le16 0 ++ le16 4 ++ le16 0x1234 ++ [0, 0])

/-- The record `c6data` produces: type index `0x1001`, not `0x1000`. -/
def c6rec : TypeRecord where
  Index := 0x1001
  Kind := 0x1234
  Data := [0, 0]

/-- The parse of `c6data`. -/
def c6tpi : TPIStream where
  Header := { tpiHeaderSmall with TypeRecordBytes := 8 }
  TypeRecords := [c6rec]

/-- A 1028-byte MSF file whose super-block declares 8 blocks of 512
bytes (4096 bytes): the block map (block 1) points at block 2, and the
4-byte directory holds `num_streams = 0`. -/
def c5file : List Nat :=
  MSFMagic ++ le32 512 ++ le32 1 ++ le32 8 ++ le32 4 ++ le32 0 ++ le32 1 ++
  List.replicate 456 0 ++ le32 2 ++ List.replicate 508 0 ++ le32 0

/-- The super-block `c5file` parses to. -/
def c5sb : SuperBlock where
  Magic := MSFMagic
  BlockSize := 512
  FreeBlockMapBlock := 1
  NumBlocks := 8
  NumDirectoryBytes := 4
  Unknown := 0
  BlockMapAddr := 1

/-- A 64-byte DBI stream whose `version_signature` is 4 (not `-1`). -/
def c2dbi : List Nat :=
  le32 4 ++ le32 0 ++ le32 0 ++ le32 0 ++ le32 64 ++ le32 2 ++ List.replicate 40 0

/-- A 56-byte TPI stream whose version is 0 (neither V70 nor V80). -/
def c2tpiBad : List Nat := List.replicate 56 0

/-- A well-formed 1088-byte MSF file with 4 streams; streams 0-2 are
empty and stream 3 (the DBI stream, declared size 64 in block 2) is
`c2dbi`, whose `version_signature` is invalid.  Block 2 holds the
24-byte stream directory followed by zeros, so the DBI stream content
starts with the directory bytes (`version_signature = 4`). -/
def c2file : List Nat :=
  MSFMagic ++ le32 512 ++ le32 1 ++ le32 3 ++ le32 24 ++ le32 0 ++ le32 1 ++
  List.replicate 456 0 ++ le32 2 ++ List.replicate 508 0 ++
  (le32 4 ++ le32 0 ++ le32 0 ++ le32 0 ++ le32 64 ++ le32 2) ++
  List.replicate 40 0

/-- The DBI stream content of `c2file` as the facade reads it. -/
def c2dbiContent : Option (List Nat) :=
  match msfOpen c2file with
  | Except.ok m => streamReadAll m (m.streams.getD StreamDBI default)
  | Except.error _ => none

/-- A placeholder MSF handle (no streams) for facade-level values. -/
def dummyMSF : MSF where
  file := []
  superBlock := c5sb
  directory := { NumStreams := 0, StreamSizes := [], StreamBlocks := [] }
  streams := []

/-- A PE section header at RVA `0x1000` named `.text`. -/
def c7hdr : PESectionHeader where
  Name := [46, 116, 101, 120, 116, 0, 0, 0]
  VirtualSize := 0x2000
  VirtualAddress := 0x1000
  SizeOfRawData := 0
  PointerToRawData := 0
  PointerToRelocations := 0
  PointerToLinenumbers := 0
  NumberOfRelocations := 0
  NumberOfLinenumbers := 0
  Characteristics := 0

/-- A PDB with one PE section header loaded. -/
def c7pdbA : PDB where
  msf := dummyMSF
  pdbInfo := none
  tpi := none
  dbi := none
  sectionHeaders := [c7hdr]

/-- A DBI stream with a one-entry section map at offset `0x4000`. -/
def c7dbiB : DBIStream where
  Header := readDBIHeader []
  Modules := []
  SectionContribs := []
  SectionMap := [{ Flags := 0, Ovl := 0, Group := 0, Frame := 0, SectionName := 0,
                   ClassName := 0, Offset := 0x4000, SectionLength := 0x100 }]
  DebugHeader := none

/-- A PDB with no PE section headers, falling back to the section map. -/
def c7pdbB : PDB where
  msf := dummyMSF
  pdbInfo := none
  tpi := none
  dbi := some c7dbiB
  sectionHeaders := []

/-! ## Helper lemmas -/

/-- Records produced by the TPI record loop have indices at least
`ti + position` and below `tiEnd`. -/
theorem tpiLoop_get : ∀ (fuel : Nat) (rd : List Nat) (off ti tiEnd i : Nat) (r : TypeRecord),
    (tpiLoop fuel rd off ti tiEnd).get? i = some r → ti + i ≤ r.Index ∧ r.Index < tiEnd := by
  intro fuel
  induction fuel with
  | zero => intro rd off ti tiEnd i r h; simp [tpiLoop] at h
  | succ f ih =>
    intro rd off ti tiEnd i r h
    simp only [tpiLoop] at h
    split at h
    case isTrue hcond =>
      split at h
      case isTrue => simp at h
      case isFalse =>
        split at h
        case isTrue => simp at h
        case isFalse =>
          split at h
          case isTrue =>
            have := ih rd (off + 2) (ti + 1) tiEnd i r h
            omega
          case isFalse =>
            match i with
            | 0 =>
              simp only [List.get?] at h
              cases h
              refine ⟨?_, ?_⟩
              · show ti + 0 ≤ ti
                omega
              · show ti < tiEnd
                exact hcond.2
            | Nat.succ j =>
              simp only [List.get?] at h
              have := ih rd (off + 2 + u16at rd off) (ti + 1) tiEnd j r h
              omega
    case isFalse => simp at h

/-- Membership form of `tpiLoop_get`. -/
theorem tpiLoop_mem (fuel : Nat) (rd : List Nat) (off ti tiEnd : Nat) (r : TypeRecord)
    (hr : r ∈ tpiLoop fuel rd off ti tiEnd) : ti ≤ r.Index ∧ r.Index < tiEnd := by
  obtain ⟨n, hn⟩ := List.mem_iff_get?.mp hr
  have := tpiLoop_get fuel rd off ti tiEnd n r hn
  omega

/-- The TPI record loop produces strictly increasing type indices. -/
theorem tpiLoop_pairwise : ∀ (fuel : Nat) (rd : List Nat) (off ti tiEnd : Nat),
    List.Pairwise (fun a b => a.Index < b.Index) (tpiLoop fuel rd off ti tiEnd) := by
  intro fuel
  induction fuel with
  | zero => intro rd off ti tiEnd; simp [tpiLoop]
  | succ f ih =>
    intro rd off ti tiEnd
    simp only [tpiLoop]
    split
    case isTrue hcond =>
      split
      case isTrue => exact List.Pairwise.nil
      case isFalse =>
        split
        case isTrue => exact List.Pairwise.nil
        case isFalse =>
          split
          case isTrue => exact ih rd (off + 2) (ti + 1) tiEnd
          case isFalse =>
            refine List.Pairwise.cons ?_ (ih rd (off + 2 + u16at rd off) (ti + 1) tiEnd)
            intro b hb
            have := tpiLoop_mem f rd (off + 2 + u16at rd off) (ti + 1) tiEnd b hb
            simp only []
            omega
    case isFalse => exact List.Pairwise.nil

/-- In a list with strictly increasing indices, searching the reversed
list for an element's index finds exactly that element (Go map
overwrite semantics with unique keys). -/
theorem find_reverse_of_pairwise : ∀ (l : List TypeRecord),
    List.Pairwise (fun a b => a.Index < b.Index) l → ∀ r ∈ l,
    l.reverse.find? (fun x => x.Index == r.Index) = some r := by
  intro l
  induction l with
  | nil => intro _ r hr; cases hr
  | cons a t ih =>
    intro hp r hr
    rw [List.reverse_cons, List.find?_append]
    rcases List.mem_cons.mp hr with h | h
    · subst h
      have hnone : t.reverse.find? (fun x => x.Index == r.Index) = none := by
        rw [List.find?_eq_none]
        intro x hx
        have hxt : x ∈ t := List.mem_reverse.mp hx
        have hlt : r.Index < x.Index := (List.pairwise_cons.mp hp).1 x hxt
        simp only [beq_iff_eq]
        omega
      rw [hnone]
      simp [List.find?]
    · have hfind := ih (List.pairwise_cons.mp hp).2 r h
      rw [hfind]
      rfl

/-- Successful TPI parses are the header plus the record loop output. -/
theorem readTPIStream_ok (data : List Nat) (t : TPIStream)
    (hok : ReadTPIStream data = Except.ok t) :
    t.Header = readTPIHeader data ∧
      t.TypeRecords =
        tpiLoop ((readTPIHeader data).TypeIndexEnd - (readTPIHeader data).TypeIndexBegin)
          ((data.drop 56).take (readTPIHeader data).TypeRecordBytes) 0
          (readTPIHeader data).TypeIndexBegin (readTPIHeader data).TypeIndexEnd := by
  simp only [ReadTPIStream] at hok
  split at hok
  · exact absurd hok (by simp)
  · split at hok
    · exact absurd hok (by simp)
    · split at hok
      · exact absurd hok (by simp)
      · cases hok
        exact ⟨rfl, rfl⟩

/-! ## Claims -/

/-- C1: the spec says a name beginning with `__imp_` is demangled by
stripping the prefix, recursing, and appending `" [import]"`.  The Go
code has that branch, but it is dead: every `__imp_`-prefixed name also
has prefix `_`, and the C-decoration branch runs first, so
`DemangleFull "__imp_foo"` strips one underscore and returns
`"_imp_foo"` instead of `"foo [import]"`. -/
theorem c1_import_thunk_branch_dead :
    DemangleFull "__imp_foo" = some { Name := "_imp_foo", Prototype := "" } ∧
      ("_imp_foo" : String) ≠ "foo" ++ " [import]" := by
  exact ⟨rfl, by decide⟩

/-- C3: field-list parsing does not terminate on a field list whose
`LF_INDEX` continuation points back at itself — there is no visited set
or depth bound in the code, so no fuel bound suffices: the embedded
parser returns the fuel-exhaustion marker for every fuel. -/
theorem c3_field_list_cycle_diverges :
    (∀ fuel : Nat, parseFieldList fuel (some tpiCyc) cycBytes = none) ∧
      (∀ fuel : Nat, parseEnumFieldList fuel (some tpiCyc) cycBytes = none) := by
  constructor
  · intro fuel
    unfold parseFieldList
    induction fuel with
    | zero => rfl
    | succ f ih =>
      have hstep : pflLoop (f+1) (some tpiCyc) cycBytes 0 [] =
          (pflLoop f (some tpiCyc) cycBytes 0 []).bind
            (fun cm => pflLoop f (some tpiCyc) cycBytes 8 cm) := rfl
      rw [hstep, ih]
      rfl
  · intro fuel
    unfold parseEnumFieldList
    induction fuel with
    | zero => rfl
    | succ f ih =>
      have hstep : peflLoop (f+1) (some tpiCyc) cycBytes 0 [] =
          (peflLoop f (some tpiCyc) cycBytes 0 []).bind
            (fun cm => peflLoop f (some tpiCyc) cycBytes 8 cm) := rfl
      rw [hstep, ih]
      rfl

/-- C4: `ParseProcSym` guards only `len(data) < 32` and then reads the
segment u16 at offset 32 and the flags byte at offset 34, so payloads
of length 32, 33 and 34 pass the guard and read out of range (a Go
runtime panic) instead of returning an error; 31 bytes is an error and
35 bytes parses. -/
theorem c4_parse_proc_sym_reads_out_of_range :
    ParseProcSym (List.replicate 32 0) = ProcParseResult.outOfRange ∧
      ParseProcSym (List.replicate 33 0) = ProcParseResult.outOfRange ∧
      ParseProcSym (List.replicate 34 0) = ProcParseResult.outOfRange ∧
      ParseProcSym (List.replicate 31 0) = ProcParseResult.tooSmall ∧
      ParseProcSym (List.replicate 35 0) =
        ProcParseResult.ok
          { Parent := 0, End := 0, Next := 0, Length := 0, DbgStart := 0, DbgEnd := 0,
            TypeIndex := 0, Offset := 0, Segment := 0, Flags := 0, Name := "" } := by
  refine ⟨rfl, rfl, rfl, rfl, rfl⟩

set_option maxRecDepth 10000 in
/-- C5 (counterexample): the claim that MSF open fails on every file
smaller than `block_count × block_size` is false — `c5file` is 1028
bytes, its super-block declares 8 × 512 = 4096 bytes, and open
succeeds. -/
theorem c5_counterexample :
    ¬ (∀ (file : List Nat) (sb : SuperBlock), ReadSuperBlock file = Except.ok sb →
        file.length < sb.NumBlocks * sb.BlockSize → (msfOpen file).isOk = false) := by
  intro hall
  have h2 : c5file.length < c5sb.NumBlocks * c5sb.BlockSize := by decide
  exact absurd (hall c5file c5sb (by decide) h2) (by decide)

set_option maxRecDepth 10000 in
/-- C5 (amended): MSF open does not check the file-size invariant; it
validates the super-block fields and the readability of the block map
and directory only, so a file shorter than `block_count × block_size`
opens successfully. -/
theorem c5_open_ignores_file_size_invariant :
    (msfOpen c5file).isOk = true ∧ ReadSuperBlock c5file = Except.ok c5sb ∧
      c5file.length = 1028 ∧ c5sb.NumBlocks * c5sb.BlockSize = 4096 := by
  exact ⟨by decide, by decide, by decide, by decide⟩

set_option maxRecDepth 10000 in
/-- C2 (counterexample): `c2file` is a well-formed MSF container whose
DBI stream has `version_signature = 0` (not `-1`); `ReadDBIStream`
rejects that stream, yet `pdb.Open` succeeds on the file. -/
theorem c2_counterexample :
    c2dbiContent = some c2dbi ∧ u32at c2dbi 0 ≠ 0xFFFFFFFF ∧
      (ReadDBIStream c2dbi).isFailed = true ∧ (pdbOpen c2file).isOk = true := by
  exact ⟨by decide, by decide, by decide, by decide⟩

set_option maxRecDepth 10000 in
/-- C2 (amended): a DBI `version_signature ≠ -1` and a TPI version
other than V70/V80 make the stream parsers return errors, but
`pdb.Open` discards those errors (`pdb.dbi, _ = ...`) and succeeds;
only MSF-level open failures surface to the caller. -/
theorem c2_stream_errors_do_not_surface :
    (∀ data : List Nat, u32at data 0 ≠ 0xFFFFFFFF → (ReadDBIStream data).isFailed = true) ∧
      (∀ data : List Nat, u32at data 0 ≠ TPIStreamVersionV70 →
        u32at data 0 ≠ TPIStreamVersionV80 → (ReadTPIStream data).isOk = false) ∧
      (pdbOpen c2file).isOk = true := by
  refine ⟨?_, ?_, by decide⟩
  · intro data h
    simp only [ReadDBIStream]
    split
    · rfl
    · rw [if_pos]
      · rfl
      · exact h
  · intro data h70 h80
    simp only [ReadTPIStream]
    split
    · rfl
    · rw [if_pos]
      · rfl
      · exact ⟨h80, h70⟩

set_option maxRecDepth 10000 in
/-- C2 (witness): the amended theorem applied to the concrete invalid
DBI and TPI streams. -/
theorem c2_stream_errors_witness :
    (ReadDBIStream c2dbi).isFailed = true ∧ (ReadTPIStream c2tpiBad).isOk = false ∧
      (pdbOpen c2file).isOk = true :=
  ⟨c2_stream_errors_do_not_surface.1 c2dbi (by decide),
   c2_stream_errors_do_not_surface.2.1 c2tpiBad (by decide) (by decide),
   c2_stream_errors_do_not_surface.2.2⟩

/-- C6 (counterexample): the running type index increments even for
skipped records of declared length `< 2`, so a produced record's index
can exceed `type_index_begin + ordinal`: in `c6data` the single
produced record (ordinal 0) has index `0x1001`, not `0x1000`. -/
theorem c6_counterexample :
    ¬ (∀ (data : List Nat) (t : TPIStream), ReadTPIStream data = Except.ok t →
        ∀ (i : Nat) (r : TypeRecord), t.TypeRecords.get? i = some r →
          r.Index = t.Header.TypeIndexBegin + i) := by
  intro hall
  have h := hall c6data c6tpi rfl 0 c6rec rfl
  exact absurd h (by decide)

/-- C6 (amended): every record produced by TPI record iteration has
`type_index_begin + ordinal ≤ index < type_index_end` (with equality
whenever no shorter-than-2 entry was skipped before it), and looking
the index up through `GetType` returns the same record. -/
theorem c6_tpi_index_assignment :
    ∀ (data : List Nat) (t : TPIStream), ReadTPIStream data = Except.ok t →
      ∀ (i : Nat) (r : TypeRecord), t.TypeRecords.get? i = some r →
        t.Header.TypeIndexBegin + i ≤ r.Index ∧ r.Index < t.Header.TypeIndexEnd ∧
          GetType t r.Index = some r := by
  intro data t hok i r hget
  obtain ⟨h1, h2⟩ := readTPIStream_ok data t hok
  rw [h2] at hget
  have hb := tpiLoop_get _ _ _ _ _ _ _ hget
  refine ⟨by rw [h1]; exact hb.1, by rw [h1]; exact hb.2, ?_⟩
  unfold GetType
  rw [h2]
  exact find_reverse_of_pairwise _ (tpiLoop_pairwise _ _ _ _ _) r (List.get?_mem hget)

/-- C6 (witness): the amended theorem at the concrete stream `c6data`,
whose ordinal-0 record has index `0x1001`. -/
theorem c6_tpi_index_witness :
    c6tpi.Header.TypeIndexBegin + 0 ≤ c6rec.Index ∧
      c6rec.Index < c6tpi.Header.TypeIndexEnd ∧ GetType c6tpi c6rec.Index = some c6rec :=
  c6_tpi_index_assignment c6data c6tpi rfl 0 c6rec rfl

/-- C7: `SegmentToRVA` with a 1-based segment returns
`section_headers[segment-1].virtual_address + offset` when PE section
headers are loaded, falls back to `section_map[segment-1].offset +
offset` otherwise, and yields 0 for segment 0 or out of range
(addition is u32). -/
theorem c7_segment_to_rva (p : PDB) (seg off : Nat) :
    (∀ (h2 : seg - 1 < p.sectionHeaders.length), 1 ≤ seg →
       SegmentToRVA p seg off =
         ((p.sectionHeaders.get ⟨seg - 1, h2⟩).VirtualAddress + off) % 4294967296)
    ∧ (0 < p.sectionHeaders.length → seg = 0 ∨ p.sectionHeaders.length < seg →
       SegmentToRVA p seg off = 0)
    ∧ (∀ d, p.sectionHeaders = [] → p.dbi = some d →
       ∀ (h2 : seg - 1 < d.SectionMap.length), 1 ≤ seg →
       SegmentToRVA p seg off =
         ((d.SectionMap.get ⟨seg - 1, h2⟩).Offset + off) % 4294967296)
    ∧ (p.sectionHeaders = [] → p.dbi = none → SegmentToRVA p seg off = 0)
    ∧ (∀ d, p.sectionHeaders = [] → p.dbi = some d →
       d.SectionMap = [] ∨ seg = 0 ∨ d.SectionMap.length < seg →
       SegmentToRVA p seg off = 0) := by
  refine ⟨?_, ?_, ?_, ?_, ?_⟩
  · intro h2 h1
    unfold SegmentToRVA
    rw [if_pos (by omega),
        if_neg (fun hc => hc.elim (fun hc => by simp only [beq_iff_eq] at hc; omega)
          (fun hc => by omega))]
    rw [List.getD_eq_get?, List.get?_eq_get h2, Option.getD_some]
  · intro hpos hcase
    unfold SegmentToRVA
    rw [if_pos hpos, if_pos ?_]
    rcases hcase with h | h
    · exact Or.inl (by simp [h])
    · exact Or.inr h
  · intro d hsh hdbi h2 h1
    unfold SegmentToRVA
    rw [if_neg (by simp [hsh])]
    simp only [hdbi]
    rw [if_neg (by simp only [beq_iff_eq]; omega),
        if_neg (fun hc => hc.elim (fun hc => by simp only [beq_iff_eq] at hc; omega)
          (fun hc => by omega))]
    rw [List.getD_eq_get?, List.get?_eq_get h2, Option.getD_some]
  · intro hsh hdbi
    unfold SegmentToRVA
    rw [if_neg (by simp [hsh])]
    simp only [hdbi]
  · intro d hsh hdbi hcase
    unfold SegmentToRVA
    rw [if_neg (by simp [hsh])]
    simp only [hdbi]
    by_cases hm : d.SectionMap.length = 0
    · rw [if_pos (by simp [hm])]
    · rw [if_neg (by simp [hm]), if_pos ?_]
      rcases hcase with h | h | h
      · exact absurd (by simp [h] : d.SectionMap.length = 0) hm
      · exact Or.inl (by simp [h])
      · exact Or.inr h

/-- C7 (witness): the theorem at a PDB with one PE section header at
RVA `0x1000` (segment 1, offset 16 ↦ `0x1010`) and at a PDB falling
back to a one-entry section map at `0x4000` (segment 1, offset 5 ↦
`0x4005`). -/
theorem c7_segment_to_rva_witness :
    SegmentToRVA c7pdbA 1 16 = 4112 ∧ SegmentToRVA c7pdbB 1 5 = 16389 := by
  constructor
  · have h := (c7_segment_to_rva c7pdbA 1 16).1 (by decide) (by decide)
    rw [h]
    rfl
  · have h := (c7_segment_to_rva c7pdbB 1 5).2.2.1 c7dbiB rfl rfl (by decide) (by decide)
    rw [h]
    rfl

/-- C8: scenario E — a field list `[LF_MEMBER a @0, LF_MEMBER b @4,
LF_INDEX → FL2]` with `FL2 = [LF_MEMBER c @8]` parses to exactly
`[a@0, b@4, c@8]`: the continuation is recursed into and its members
spliced after the current list's members, in order (for any
sufficiently large recursion fuel). -/
theorem c8_field_list_continuation_splices :
    ∀ fuel : Nat, parseFieldList (fuel + 5) (some tpiC8) fl1bytes =
      some [{ Name := "a", TypeIdx := 0x74, TypeName := "int32", Offset := 0 },
            { Name := "b", TypeIdx := 0x74, TypeName := "int32", Offset := 4 },
            { Name := "c", TypeIdx := 0x74, TypeName := "int32", Offset := 8 }] :=
  fun _ => rfl

/-- C9: a numeric leaf whose leading little-endian u16 value is below
`0x8000` parses to that value itself with exactly 2 bytes consumed, in
both copies of the parser (`streams.ParseNumeric` and
`codeview.parseNumeric`). -/
theorem c9_numeric_leaf_roundtrip :
    ∀ (data : List Nat), 2 ≤ data.length → u16at data 0 < 0x8000 →
      ParseNumeric data = (u16at data 0, 2) ∧ parseNumericCV data = (u16at data 0, 2) := by
  intro data h1 h2
  constructor
  · simp only [ParseNumeric]
    rw [if_neg (by omega)]
    exact if_pos h2
  · simp only [parseNumericCV]
    rw [if_neg (by omega)]
    exact if_pos h2

/-- C9 (witness): bytes `[0x34, 0x12]` parse to `(0x1234, 2)`. -/
theorem c9_numeric_leaf_witness :
    ParseNumeric [52, 18] = (u16at [52, 18] 0, 2) ∧
      parseNumericCV [52, 18] = (u16at [52, 18] 0, 2) :=
  c9_numeric_leaf_roundtrip [52, 18] (by decide) (by decide)

/-- C10: `Demangle` does not return for every non-empty input — on
`"?f@@YAXUa"` (a mangled name whose class-name argument runs out of
input after one character), `parseClassName` slices
`input[start : pos-2]` with `pos - 2 < start` and the Go runtime
panics, modelled as `none`; when `DemangleFull` does return an empty
name, `Demangle` falls back to the input. -/
theorem c10_demangle_panics_on_truncated_class :
    Demangle "?f@@YAXUa" = none ∧ ("?f@@YAXUa" : String) ≠ "" ∧
      Demangle "?@@" = some "?@@" := by
  exact ⟨rfl, by decide, rfl⟩

end GoPdb
